import Mathlib

/-!
Shallow embedding of the Phenom Ear Trainer core (curriculum catalog,
mastery heatmap, question-generator pools, session grading, progression
engine, persistence and cloud merge), translated from the TypeScript
sources, together with theorems settling the specification claims.

Numeric conventions: JavaScript numbers that stay integral (ids, xp,
midi pitches, counters) are modelled as Nat or Int; fractional values
(heatmap scores, octave ranges) as Rat. JS `%` on Int is `Int.tmod`
(remainder takes the sign of the dividend, as in JS).
-/

namespace Phenom

/-- Difficulty levels, from types.ts `DifficultyLevel`. -/
inductive DifficultyLevel where
  | BEGINNER
  | INTERMEDIATE
  | MASTER
deriving DecidableEq, BEq, Repr

/-- Theme field of the profile, `light` or `dark`. -/
inductive Theme where
  | light
  | dark
deriving DecidableEq, Repr

/-- Challenge record, from types.ts. `isExam` is optional in the source
(`isExam?: boolean`); an absent field is falsy, modelled as `false`. -/
structure Challenge where
  id : Nat
  level : DifficultyLevel
  title : String
  subtitle : String
  notePool : List Nat
  sequenceLength : Nat
  octaveRange : Rat
  isModulating : Bool
  chaosMode : Bool
  tasksCount : Nat
  isExam : Bool := false
deriving DecidableEq, Repr

/-- The learner profile `UserStats`, from types.ts. `highScores` is a JS
object keyed by challenge id, modelled as a lookup function; a key absent
from the object is `none`. -/
structure UserStats where
  streak : Nat
  xp : Nat
  hearts : Int
  level : Nat
  heatmap : List Rat
  unlockedChallenges : List Nat
  highScores : Nat → Option Nat
  lastPlayedDate : Option String
  theme : Theme

/-- `INITIAL_STATS` from the storage service. -/
def INITIAL_STATS : UserStats where
  streak := 0
  xp := 0
  hearts := 5
  level := 1
  heatmap := [0.5, 0.5, 0.5, 0.5, 0.5, 0.5, 0.5, 0.5, 0.5, 0.5, 0.5, 0.5]
  unlockedChallenges := [1]
  highScores := fun _ => none
  lastPlayedDate := none
  theme := Theme.dark

/-! ### Curriculum catalog (src/services/curriculum.ts, current version lines 10-225) -/

def CHROMATIC : List Nat := [0, 1, 2, 3, 4, 5, 6, 7, 8, 9, 10, 11]

def MAJOR_SCALE : List Nat := [0, 2, 4, 5, 7, 9, 11]

def PENTASCALE : List Nat := [0, 2, 4, 5, 7]

def NON_DIATONIC : List Nat := [0, 1, 3, 6, 8, 10]

def CHORD_TONES : List Nat := [0, 3, 4, 7, 10, 11, 2]

/-- Note pool of beginner challenge `i` (1-based), from the if-chain of the
beginner loop. -/
def beginnerPool (i : Nat) : List Nat :=
  if i ≤ 5 then [0, 7, 1]
  else if i ≤ 10 then [0, 7, 1, 2, 4, 3]
  else if i ≤ 15 then [0, 7, 1, 2, 4, 3, 5, 6]
  else if i ≤ 20 then [0, 7, 1, 2, 4, 3, 5, 6, 8, 9]
  else if i ≤ 25 then [0, 7, 1, 2, 4, 3, 5, 6, 8, 9, 10, 11]
  else if i ≤ 35 then MAJOR_SCALE
  else if i ≤ 45 then NON_DIATONIC
  else CHROMATIC

def beginnerTitleBase (i : Nat) : String :=
  if i ≤ 5 then "The Anchors & The Clash"
  else if i ≤ 10 then "Major/Minor Colors"
  else if i ≤ 15 then "Suspension & Tension"
  else if i ≤ 20 then "The Outer Rim"
  else if i ≤ 25 then "The Final Resolution"
  else if i ≤ 35 then "Diatonic Focus"
  else if i ≤ 45 then "The Black Keys Focus"
  else "Full Chromatic Graduation"

def beginnerSubtitle (i : Nat) : String :=
  if i ≤ 5 then "Stability vs Tension"
  else if i ≤ 10 then "Happy vs Sad Qualities"
  else if i ≤ 15 then "The Center of the Octave"
  else if i ≤ 20 then "Wide Intervals"
  else if i ≤ 25 then "Leading Tones"
  else if i ≤ 35 then "Major Scale Only"
  else if i ≤ 45 then "Accidentals Only"
  else "Mastery Check"

/-- Beginner challenge `i` for `i = 1..50`. The source pushes these with a
sequential `idCounter` starting at 1, so the i-th pushed challenge has
id `i`. -/
def beginnerChallenge (i : Nat) : Challenge where
  id := i
  level := DifficultyLevel.BEGINNER
  title := beginnerTitleBase i ++ " " ++ toString ((i - 1) % 5 + 1)
  subtitle := beginnerSubtitle i
  notePool := beginnerPool i
  sequenceLength := 1
  octaveRange := 1
  isModulating := false
  chaosMode := false
  tasksCount := 10

/-- Level 1 exam, pushed after the 50 beginner challenges, so id 51. -/
def beginnerExam : Challenge where
  id := 51
  level := DifficultyLevel.BEGINNER
  title := "Beginner Final Exam"
  subtitle := "Level 1 Assessment"
  notePool := CHROMATIC
  sequenceLength := 1
  octaveRange := 1
  isModulating := true
  chaosMode := false
  tasksCount := 20
  isExam := true

def intermediatePool (i : Nat) : List Nat :=
  if i ≤ 60 then PENTASCALE
  else if i ≤ 70 then MAJOR_SCALE
  else CHROMATIC

def intermediateRange (i : Nat) : Rat :=
  if i ≤ 60 then 0.5
  else if i ≤ 70 then 1
  else if i ≤ 80 then 1
  else if i ≤ 90 then 1.5
  else 1

def intermediateLen (i : Nat) : Nat :=
  if i ≤ 80 then 3 else if i ≤ 90 then 4 else 3

def intermediateTitleBase (i : Nat) : String :=
  if i ≤ 60 then "The Pentascale"
  else if i ≤ 70 then "The Full Octave"
  else if i ≤ 80 then "Chromatic Weaving"
  else if i ≤ 90 then "Range Extension I"
  else "Modulation Basics"

def intermediateSubtitle (i : Nat) : String :=
  if i ≤ 60 then "5-Note Range"
  else if i ≤ 70 then "Diatonic Melodies"
  else if i ≤ 80 then "Passing Tones"
  else if i ≤ 90 then "1.5 Octave Span"
  else "Shifting Key Centers"

/-- Intermediate challenge for loop index `j = 1..50`; the source sets
`i = j + 50` and pushes with the running counter, which at this point
assigns id `51 + j` (ids 52..101). -/
def intermediateChallenge (j : Nat) : Challenge :=
  let i := j + 50
  { id := 51 + j
    level := DifficultyLevel.INTERMEDIATE
    title := intermediateTitleBase i ++ " " ++ toString ((i - 51) % 10 + 1)
    subtitle := intermediateSubtitle i
    notePool := intermediatePool i
    sequenceLength := intermediateLen i
    octaveRange := intermediateRange i
    isModulating := decide (90 < i)
    chaosMode := false
    tasksCount := 10 }

/-- Level 2 exam, id 102. -/
def intermediateExam : Challenge where
  id := 102
  level := DifficultyLevel.INTERMEDIATE
  title := "Intermediate Final Exam"
  subtitle := "Level 2 Assessment"
  notePool := CHROMATIC
  sequenceLength := 4
  octaveRange := 1.5
  isModulating := true
  chaosMode := false
  tasksCount := 20
  isExam := true

def masterPool (i : Nat) : List Nat :=
  if i ≤ 115 then CHORD_TONES
  else if i ≤ 130 then MAJOR_SCALE
  else CHROMATIC

def masterRange (i : Nat) : Rat :=
  if i ≤ 115 then 1.5 else 2

def masterLen (i : Nat) : Nat :=
  if i ≤ 115 then 4 else 5

def masterTitleBase (i : Nat) : String :=
  if i ≤ 115 then "Arpeggios & Leaps"
  else if i ≤ 130 then "The Grand Staff"
  else if i ≤ 140 then "2 Octave Chromatic"
  else "The Phenom Gauntlet"

def masterSubtitle (i : Nat) : String :=
  if i ≤ 115 then "Chord Tones Only"
  else if i ≤ 130 then "2 Octave Diatonic"
  else if i ≤ 140 then "Professional Standard"
  else "Maximum Difficulty"

/-- Master challenge for loop index `j = 1..50`; the source sets
`i = j + 100` and the running counter assigns id `102 + j` (ids 103..152). -/
def masterChallenge (j : Nat) : Challenge :=
  let i := j + 100
  { id := 102 + j
    level := DifficultyLevel.MASTER
    title := masterTitleBase i ++ " " ++ toString ((i - 101) % 10 + 1)
    subtitle := masterSubtitle i
    notePool := masterPool i
    sequenceLength := masterLen i
    octaveRange := masterRange i
    isModulating := decide (140 < i)
    chaosMode := decide (140 < i)
    tasksCount := 10 }

/-- Level 3 exam, id 153. -/
def masterExam : Challenge where
  id := 153
  level := DifficultyLevel.MASTER
  title := "Master Final Exam"
  subtitle := "Level 3 Assessment"
  notePool := CHROMATIC
  sequenceLength := 5
  octaveRange := 2
  isModulating := true
  chaosMode := true
  tasksCount := 20
  isExam := true

/-- `generateCurriculum()` from src/services/curriculum.ts: 50 beginner
challenges, the beginner exam, 50 intermediate, the intermediate exam,
50 master, the master exam, in push order. -/
def generateCurriculum : List Challenge :=
  ((List.range' 1 50).map beginnerChallenge) ++ [beginnerExam]
    ++ ((List.range' 1 50).map intermediateChallenge) ++ [intermediateExam]
    ++ ((List.range' 1 50).map masterChallenge) ++ [masterExam]

/-- `const CURRICULUM = generateCurriculum();` from the app module. -/
def CURRICULUM : List Challenge := generateCurriculum

/-- Claim C6: `generateCurriculum()` is pure and deterministic (two
invocations yield element-wise identical lists), its ids are exactly
1, 2, 3, ... assigned strictly sequentially in list order, and each of the
three difficulty levels has exactly one challenge with `isExam = true`. -/
theorem generateCurriculum_deterministic_sequential_exams :
    generateCurriculum = generateCurriculum
      ∧ generateCurriculum.map Challenge.id = List.range' 1 153
      ∧ ∀ lvl : DifficultyLevel,
          (generateCurriculum.filter (fun c => c.isExam && c.level == lvl)).length = 1 := by
  refine ⟨rfl, by decide, ?_⟩
  intro lvl
  cases lvl <;> decide

/-! ### Mastery heatmap (handleUpdateHeatmap in the app module) -/

/-- `handleUpdateHeatmap`:
`newHeatmap[interval] = Math.min(1, Math.max(0, newHeatmap[interval] + (correct ? 0.05 : -0.1)))`.
The index is a JS number; an out-of-range index leaves the 12 indexed slots
of the copied array unchanged (a negative index only creates a stray named
property, and reading it yields NaN), so the vector is modelled as
unchanged in that case. -/
def handleUpdateHeatmap (heatmap : List Rat) (interval : Int) (correct : Bool) : List Rat :=
  if 0 ≤ interval ∧ interval.toNat < heatmap.length then
    heatmap.set interval.toNat
      (min 1 (max 0 (heatmap.getD interval.toNat 0 + (if correct then 0.05 else -0.1))))
  else heatmap

theorem getD_set_self (l : List Rat) (i : Nat) (v d : Rat) (h : i < l.length) :
    (l.set i v).getD i d = v := by
  simp [List.getD, List.getElem?_set, h]

theorem handleUpdateHeatmap_getD (h : List Rat) (i : Nat) (c : Bool) (hlen : i < h.length) :
    (handleUpdateHeatmap h i c).getD i 0
      = min 1 (max 0 (h.getD i 0 + (if c then 0.05 else -0.1))) := by
  have hcond : 0 ≤ (i : Int) ∧ (i : Int).toNat < h.length :=
    ⟨Int.ofNat_nonneg i, by simpa using hlen⟩
  rw [handleUpdateHeatmap, if_pos hcond]
  simp only [Int.toNat_natCast]
  exact getD_set_self h i _ 0 hlen

/-- Claim C5: for a heatmap of 12 values in `[0,1]` and an index in `0..11`,
the update with `correct = true` sets the slot to `min(1, h[i] + 0.05)` and
never decreases it, the update with `correct = false` sets it to
`max(0, h[i] - 0.10)` and never increases it, and in both cases the result
stays in `[0,1]`. -/
theorem handleUpdateHeatmap_spec (h : List Rat) (i : Nat)
    (hl : h.length = 12) (hi : i < 12)
    (h0 : 0 ≤ h.getD i 0) (h1 : h.getD i 0 ≤ 1) :
    ((handleUpdateHeatmap h i true).getD i 0 = min 1 (h.getD i 0 + 0.05)
      ∧ h.getD i 0 ≤ (handleUpdateHeatmap h i true).getD i 0
      ∧ 0 ≤ (handleUpdateHeatmap h i true).getD i 0
      ∧ (handleUpdateHeatmap h i true).getD i 0 ≤ 1)
    ∧ ((handleUpdateHeatmap h i false).getD i 0 = max 0 (h.getD i 0 - 0.1)
      ∧ (handleUpdateHeatmap h i false).getD i 0 ≤ h.getD i 0
      ∧ 0 ≤ (handleUpdateHeatmap h i false).getD i 0
      ∧ (handleUpdateHeatmap h i false).getD i 0 ≤ 1) := by
  have hlen : i < h.length := by omega
  set y := h.getD i 0 with hy
  have htrue : (handleUpdateHeatmap h i true).getD i 0 = min 1 (max 0 (y + 0.05)) := by
    rw [handleUpdateHeatmap_getD h i true hlen, ← hy]
    norm_num
  have hfalse : (handleUpdateHeatmap h i false).getD i 0 = min 1 (max 0 (y + -0.1)) := by
    rw [handleUpdateHeatmap_getD h i false hlen, ← hy]
    norm_num
  have e1 : max (0 : Rat) (y + 0.05) = y + 0.05 := max_eq_right (by linarith)
  have e2 : min (1 : Rat) (max 0 (y + -0.1)) = max 0 (y - 0.1) := by
    rw [show y + -0.1 = y - 0.1 by ring]
    exact min_eq_right (max_le (by norm_num) (by linarith))
  refine ⟨⟨?_, ?_, ?_, ?_⟩, ⟨?_, ?_, ?_, ?_⟩⟩
  · rw [htrue, e1]
  · rw [htrue, e1]
    exact le_min h1 (by linarith)
  · rw [htrue, e1]
    exact le_min (by norm_num) (by linarith)
  · rw [htrue, e1]
    exact min_le_left _ _
  · rw [hfalse, e2]
  · rw [hfalse, e2]
    exact max_le h0 (by linarith)
  · rw [hfalse, e2]
    exact le_max_left _ _
  · rw [hfalse, e2]
    exact max_le (by norm_num) (by linarith)

/-- Witness for C5 at the initial profile heatmap and index 3. -/
theorem handleUpdateHeatmap_spec_witness :
    (handleUpdateHeatmap INITIAL_STATS.heatmap 3 true).getD 3 0
        = min 1 (INITIAL_STATS.heatmap.getD 3 0 + 0.05)
      ∧ (handleUpdateHeatmap INITIAL_STATS.heatmap 3 false).getD 3 0
        = max 0 (INITIAL_STATS.heatmap.getD 3 0 - 0.1) := by
  have hg : INITIAL_STATS.heatmap.getD 3 0 = 0.5 := rfl
  exact ⟨(handleUpdateHeatmap_spec INITIAL_STATS.heatmap 3 rfl (by norm_num)
      (by rw [hg]; norm_num) (by rw [hg]; norm_num)).1.1,
    (handleUpdateHeatmap_spec INITIAL_STATS.heatmap 3 rfl (by norm_num)
      (by rw [hg]; norm_num) (by rw [hg]; norm_num)).2.1⟩

/-! ### Weak spots (getWeakSpots in the app module)

The source builds `{score, i}` pairs, sorts them with the comparator
`(a, b) => a.score - b.score` (ascending by score; `Array.prototype.sort`
is stable per ES2019, so ties keep original index order) and takes the
first four indices. The stable sort is embedded as an insertion sort that
inserts each pair, in index order, after all pairs of less-or-equal
score. -/

def insertByScore (x : Nat × Rat) : List (Nat × Rat) → List (Nat × Rat)
  | [] => [x]
  | y :: ys => if x.2 < y.2 then x :: y :: ys else y :: insertByScore x ys

/-- Stable ascending sort of score-index pairs: elements are inserted in
original order, each after all pairs whose score is not greater. -/
def sortByScore (l : List (Nat × Rat)) : List (Nat × Rat) :=
  l.foldl (fun acc x => insertByScore x acc) []

/-- `getWeakSpots(heatmap)`: indices of the pairs, sorted ascending by
score (stably), first four. -/
def getWeakSpots (heatmap : List Rat) : List Nat :=
  ((sortByScore heatmap.enum).take 4).map Prod.fst

/-- The order the sorted list satisfies: ascending score, ties broken by
ascending original index. -/
def scoreIdxLe (p q : Nat × Rat) : Prop :=
  p.2 < q.2 ∨ (p.2 = q.2 ∧ p.1 ≤ q.1)

theorem mem_insertByScore (x p : Nat × Rat) (l : List (Nat × Rat)) :
    p ∈ insertByScore x l ↔ p = x ∨ p ∈ l := by
  induction l with
  | nil => simp [insertByScore]
  | cons y ys ih =>
    rw [insertByScore]
    split
    · simp
    · simp only [List.mem_cons, ih]
      tauto

theorem perm_insertByScore (x : Nat × Rat) (l : List (Nat × Rat)) :
    List.Perm (insertByScore x l) (x :: l) := by
  induction l with
  | nil => rfl
  | cons y ys ih =>
    rw [insertByScore]
    split
    · rfl
    · exact ((ih.cons y).trans (List.Perm.swap x y ys))

theorem sorted_insertByScore (x : Nat × Rat) (l : List (Nat × Rat))
    (hs : l.Sorted scoreIdxLe) (hb : ∀ p ∈ l, p.1 < x.1) :
    (insertByScore x l).Sorted scoreIdxLe := by
  induction l with
  | nil => simp [insertByScore, List.Sorted]
  | cons y ys ih =>
    rw [List.sorted_cons] at hs
    rw [insertByScore]
    split
    · rename_i hlt
      rw [List.sorted_cons]
      refine ⟨?_, List.sorted_cons.2 hs⟩
      intro b hbmem
      rcases List.mem_cons.1 hbmem with rfl | hbys
      · exact Or.inl hlt
      · rcases hs.1 b hbys with h | ⟨he, _⟩
        · exact Or.inl (lt_trans hlt h)
        · exact Or.inl (he ▸ hlt)
    · rename_i hnlt
      rw [List.sorted_cons]
      refine ⟨?_, ih hs.2 (fun p hp => hb p (List.mem_cons_of_mem y hp))⟩
      intro b hbmem
      rcases (mem_insertByScore x b ys).1 hbmem with rfl | hbys
      · rcases lt_or_eq_of_le (not_lt.1 hnlt) with h | h
        · exact Or.inl h
        · exact Or.inr ⟨h, le_of_lt (hb y (List.mem_cons_self y ys))⟩
      · exact hs.1 b hbys

theorem foldl_insertByScore_perm (l acc : List (Nat × Rat)) :
    List.Perm (l.foldl (fun a x => insertByScore x a) acc) (acc ++ l) := by
  induction l generalizing acc with
  | nil => simp
  | cons x xs ih =>
    have h1 := ih (insertByScore x acc)
    have h2 : List.Perm (insertByScore x acc ++ xs) ((x :: acc) ++ xs) :=
      (perm_insertByScore x acc).append_right xs
    have h3 : List.Perm ((x :: acc) ++ xs) (acc ++ x :: xs) := List.perm_middle.symm
    exact (h1.trans h2).trans h3

theorem foldl_insertByScore_sorted (l : List Rat) (n : Nat) (acc : List (Nat × Rat))
    (hs : acc.Sorted scoreIdxLe) (hb : ∀ p ∈ acc, p.1 < n) :
    ((List.enumFrom n l).foldl (fun a x => insertByScore x a) acc).Sorted scoreIdxLe := by
  induction l generalizing n acc with
  | nil => exact hs
  | cons a as ih =>
    refine ih (n + 1) (insertByScore (n, a) acc) (sorted_insertByScore _ _ hs hb) ?_
    intro p hp
    rcases (mem_insertByScore (n, a) p acc).1 hp with rfl | hpacc
    · exact Nat.lt_succ_self n
    · exact Nat.lt_succ_of_lt (hb p hpacc)

theorem sortByScore_perm (l : List (Nat × Rat)) : List.Perm (sortByScore l) l := by
  simpa using foldl_insertByScore_perm l []

theorem sortByScore_enum_sorted (h : List Rat) :
    (sortByScore h.enum).Sorted scoreIdxLe := by
  have := foldl_insertByScore_sorted h 0 [] (by simp [List.Sorted]) (by simp)
  simpa [sortByScore, List.enum] using this

/-- Claim C7: for a heatmap of 12 scores, `getWeakSpots` returns exactly 4
distinct indices in `{0..11}`, deterministically, and they are the first 4
indices of a permutation of the indexed heatmap sorted ascending by score
with ties broken by original index order. -/
theorem getWeakSpots_spec (h : List Rat) (hl : h.length = 12) :
    (getWeakSpots h).length = 4
      ∧ (getWeakSpots h).Nodup
      ∧ (∀ i ∈ getWeakSpots h, i < 12)
      ∧ ∃ s : List (Nat × Rat), List.Perm s h.enum ∧ s.Sorted scoreIdxLe
          ∧ getWeakSpots h = (s.take 4).map Prod.fst := by
  have hperm : List.Perm (sortByScore h.enum) h.enum := sortByScore_perm h.enum
  have hws : getWeakSpots h = ((sortByScore h.enum).take 4).map Prod.fst := by
    simp [getWeakSpots]
  have hslen : (sortByScore h.enum).length = 12 := by
    rw [hperm.length_eq, List.enum_length, hl]
  have hmapfst : List.Perm ((sortByScore h.enum).map Prod.fst) (List.range 12) := by
    have := hperm.map Prod.fst
    rwa [List.enum_map_fst, hl] at this
  have hfstnodup : ((sortByScore h.enum).map Prod.fst).Nodup :=
    hmapfst.nodup_iff.2 (List.nodup_range 12)
  have hsub : List.Sublist (((sortByScore h.enum).take 4).map Prod.fst)
      ((sortByScore h.enum).map Prod.fst) :=
    List.Sublist.map Prod.fst (List.take_sublist 4 (sortByScore h.enum))
  refine ⟨?_, ?_, ?_, sortByScore h.enum, hperm, sortByScore_enum_sorted h, hws⟩
  · rw [hws, List.length_map, List.length_take, hslen]
    decide
  · rw [hws]
    exact List.Nodup.sublist hsub hfstnodup
  · intro i hi
    rw [hws] at hi
    have : i ∈ (sortByScore h.enum).map Prod.fst := hsub.mem hi
    have : i ∈ List.range 12 := hmapfst.mem_iff.1 this
    simpa using this

/-- Witness for C7 at a concrete 12-slot heatmap. -/
theorem getWeakSpots_spec_witness :
    (getWeakSpots (List.replicate 12 (0.5 : Rat))).length = 4 :=
  (getWeakSpots_spec (List.replicate 12 0.5) rfl).1

/-! ### Progression engine (handleComplete and updateStreak)

`handleComplete(xp, passed, maxXP, id?)` in the app module mutates the
profile: adds the session XP, recomputes the level, applies the heart
penalty on failure, and either records high score / unlock (challenge
passed) or updates the streak (Dojo or Practice passed). `maxXP` is not
read by the handler. The current date strings consumed by `updateStreak`
via `new Date()` are passed in as parameters. -/

/-- `StorageService.updateStreak` from the storage service. -/
def updateStreak (today yesterday : String) (s : UserStats) : UserStats :=
  if s.lastPlayedDate = some today then
    { s with lastPlayedDate := some today }
  else if s.lastPlayedDate = some yesterday then
    { s with streak := s.streak + 1, lastPlayedDate := some today }
  else
    { s with streak := 1, lastPlayedDate := some today }

/-- JS truthiness of the optional challenge id in `if (id && passed)`:
`undefined` and `0` are falsy. -/
def idTruthy (o : Option Nat) : Bool :=
  o.getD 0 != 0

/-- `handleComplete` from the app module (the version with hearts and
streak handling). -/
def handleComplete (stats : UserStats) (xp : Nat) (passed : Bool)
    (challengeId : Option Nat) (today yesterday : String) : UserStats :=
  let s1 := { stats with xp := stats.xp + xp }
  let s2 := { s1 with level := s1.xp / 500 + 1 }
  let s3 := if passed then s2 else { s2 with hearts := max 0 (s2.hearts - 1) }
  if idTruthy challengeId ∧ passed then
    let id := challengeId.getD 0
    let currentHighScore := (s3.highScores id).getD 0
    let s4 :=
      if currentHighScore < xp then
        { s3 with highScores := fun k => if k = id then some xp else s3.highScores k }
      else s3
    let nextId := id + 1
    if (CURRICULUM.any fun c => c.id == nextId) ∧ nextId ∉ s4.unlockedChallenges then
      { s4 with unlockedChallenges := s4.unlockedChallenges ++ [nextId] }
    else s4
  else
    if passed then updateStreak today yesterday s3 else s3

/-- Claim C3, amended: applying a session result with `passed = false`
performs the heart penalty (`hearts` becomes `max(0, hearts - 1)`) and
additionally adds `xpGained` to `xp`, recomputing the level; it leaves
`unlockedChallenges`, `highScores`, `streak`, `lastPlayedDate`, the heatmap
and the theme unchanged. -/
theorem handleComplete_failed_effects (stats : UserStats) (xp : Nat)
    (challengeId : Option Nat) (today yesterday : String) :
    (handleComplete stats xp false challengeId today yesterday).hearts
        = max 0 (stats.hearts - 1)
      ∧ (handleComplete stats xp false challengeId today yesterday).xp = stats.xp + xp
      ∧ (handleComplete stats xp false challengeId today yesterday).level
        = (stats.xp + xp) / 500 + 1
      ∧ (handleComplete stats xp false challengeId today yesterday).unlockedChallenges
        = stats.unlockedChallenges
      ∧ (handleComplete stats xp false challengeId today yesterday).highScores
        = stats.highScores
      ∧ (handleComplete stats xp false challengeId today yesterday).streak = stats.streak
      ∧ (handleComplete stats xp false challengeId today yesterday).lastPlayedDate
        = stats.lastPlayedDate
      ∧ (handleComplete stats xp false challengeId today yesterday).heatmap = stats.heatmap
      ∧ (handleComplete stats xp false challengeId today yesterday).theme = stats.theme := by
  simp [handleComplete]

/-- Counterexample to claim C3 as stated: a failed session that still
earned partial XP (10 XP against a 100 XP maximum fails the 80% pass bar)
does not leave `xp` unchanged — `handleComplete` adds the XP
unconditionally. -/
theorem handleComplete_failed_changes_xp :
    ¬ (handleComplete INITIAL_STATS 10 false none "2026-10-12" "2026-10-11").xp
        = INITIAL_STATS.xp := by
  simp [handleComplete, INITIAL_STATS]

/-! ### Cloud merge (StorageService.syncWithCloud)

When both a local and a remote (cloud) profile exist, `syncWithCloud`
builds `mergedStats` by spreading the local profile and then overriding:
`xp`/`level`/`streak` by max, `unlockedChallenges` by the JS
`Set([...local, ...cloud])` union, `highScores` by the object spread
`{ ...localStats.highScores, ...cloudStats.highScores }` (so a key present
in both maps takes the CLOUD entry), and `heatmap` by the cloud value;
`theme`, `hearts` and `lastPlayedDate` stay local. -/

/-- JS `Set` insertion: append if not already present (first-occurrence
order, as `Array.from(new Set(...))` preserves). -/
def jsSetInsert (acc : List Nat) (n : Nat) : List Nat :=
  if n ∈ acc then acc else acc ++ [n]

/-- `Array.from(new Set([...a, ...b]))`. -/
def jsSetUnion (a b : List Nat) : List Nat :=
  (a ++ b).foldl jsSetInsert []

/-- The object spread `{ ...localHS, ...cloudHS }`: cloud entries override
local ones on overlapping keys. -/
def mergeHighScores (localHS cloudHS : Nat → Option Nat) : Nat → Option Nat :=
  fun k =>
    match cloudHS k with
    | some v => some v
    | none => localHS k

/-- `mergedStats` from `syncWithCloud` when a cloud profile exists. -/
def mergeStats (localStats cloudStats : UserStats) : UserStats :=
  { localStats with
    xp := max localStats.xp cloudStats.xp
    level := max localStats.level cloudStats.level
    unlockedChallenges :=
      jsSetUnion localStats.unlockedChallenges cloudStats.unlockedChallenges
    highScores := mergeHighScores localStats.highScores cloudStats.highScores
    heatmap := cloudStats.heatmap
    theme := localStats.theme
    streak := max localStats.streak cloudStats.streak }

/-- A local profile whose high score for challenge 1 is 100. -/
def localProfileHS100 : UserStats :=
  { INITIAL_STATS with highScores := fun k => if k = 1 then some 100 else none }

/-- A cloud profile whose high score for challenge 1 is 50. -/
def cloudProfileHS50 : UserStats :=
  { INITIAL_STATS with highScores := fun k => if k = 1 then some 50 else none }

/-- Claim C1 (code bug): evaluating `syncWithCloud`'s merge at the failing
input. The local profile holds high score 100 for challenge 1, the cloud
profile holds 50, and the merged profile holds 50 — the object spread
`{ ...localStats.highScores, ...cloudStats.highScores }` lets the smaller
cloud entry replace the larger local one, violating the "never decreases"
invariant and the code's own "Keep max high scores" comment. The
within-session half of the claim does hold: `handleComplete` on a passed
challenge only raises the stored high score. -/
theorem mergeStats_drops_local_highscore :
    localProfileHS100.highScores 1 = some 100
      ∧ cloudProfileHS50.highScores 1 = some 50
      ∧ (mergeStats localProfileHS100 cloudProfileHS50).highScores 1 = some 50 :=
  ⟨rfl, rfl, rfl⟩

/-- Counterexample to claim C2 as stated: for key 1, present in both maps,
the merged map does not take the local profile's entry. -/
theorem mergeStats_not_local_precedence :
    ¬ (mergeStats localProfileHS100 cloudProfileHS50).highScores 1
        = localProfileHS100.highScores 1 := by
  intro h
  simp [mergeStats, mergeHighScores, localProfileHS100, cloudProfileHS50] at h

/-- Claim C2, amended: in `syncWithCloud`'s merge, the merged `highScores`
map takes the REMOTE profile's entry for every key present in the remote
map (remote entries take precedence on overlapping keys) and falls back to
the local entry exactly on the keys the remote map is missing. -/
theorem mergeStats_highScores_remote_precedence (localStats cloudStats : UserStats)
    (k : Nat) :
    (∀ v, cloudStats.highScores k = some v
      → (mergeStats localStats cloudStats).highScores k = some v)
    ∧ (cloudStats.highScores k = none
      → (mergeStats localStats cloudStats).highScores k = localStats.highScores k) := by
  constructor
  · intro v hv
    simp [mergeStats, mergeHighScores, hv]
  · intro hv
    simp [mergeStats, mergeHighScores, hv]

/-- Witness for the amended C2 at the concrete profiles: key 1 (present in
the cloud map) takes the cloud entry, key 2 (absent from the cloud map)
takes the local entry. -/
theorem mergeStats_highScores_remote_precedence_witness :
    (mergeStats localProfileHS100 cloudProfileHS50).highScores 1 = some 50
      ∧ (mergeStats localProfileHS100 cloudProfileHS50).highScores 2
        = localProfileHS100.highScores 2 :=
  ⟨(mergeStats_highScores_remote_precedence localProfileHS100 cloudProfileHS50 1).1 50 rfl,
   (mergeStats_highScores_remote_precedence localProfileHS100 cloudProfileHS50 2).2 rfl⟩

/-! ### Session grading (handleCheckSequence in the app module)

One question's grading state inside `GameSession`, restricted to the
fields `handleCheckSequence` reads or writes synchronously. The deferred
wrong-feedback phases (which run after suspension points guarded by the
sequence token) are modelled separately below. -/

/-- A generated question, from types.ts. -/
structure Question where
  keyCenter : Int
  targetMelody : List Int
  description : String
deriving DecidableEq, Repr

/-- Heatmap slot of a note relative to the key center:
`(note - q.keyCenter + 12) % 12` with the JS remainder (sign of the
dividend, `Int.tmod`). -/
def slotOf (keyCenter note : Int) : Int :=
  (note - keyCenter + 12).tmod 12

/-- The feedback banner state. -/
inductive FeedbackKind where
  | noFeedback
  | correct
  | wrong
deriving DecidableEq, Repr

/-- The component state touched by `handleCheckSequence`. -/
structure CheckState where
  xpGained : Nat
  heatmap : List Rat
  hasAttempted : Bool
  attempts : Nat
  mistakes : Nat
  canAdvance : Bool
  isAnswerRevealed : Bool
  feedback : FeedbackKind
deriving DecidableEq, Repr

/-- `q.targetMelody.forEach(note => onUpdateHeatmap(interval, true))`. -/
def applyHeatmapCorrect (keyCenter : Int) (melody : List Int) (h : List Rat) : List Rat :=
  melody.foldl (fun hm note => handleUpdateHeatmap hm (slotOf keyCenter note) true) h

/-- `userInput.forEach((note, i) => { if (note !== target[i]) onUpdateHeatmap(..., false) })`:
negative updates only at positions where played differs from target. The
check action is gated on `userInput.length === targetMelody.length`, so the
position-wise walk is the zip of the two lists. -/
def applyHeatmapMismatches (keyCenter : Int) (userInput targetMelody : List Int)
    (h : List Rat) : List Rat :=
  (userInput.zip targetMelody).foldl
    (fun hm p => if p.1 ≠ p.2 then handleUpdateHeatmap hm (slotOf keyCenter p.2) false else hm)
    h

/-- The synchronous state effects of `handleCheckSequence` (exam branch and
standard branch; the standard wrong branch's deferred audio phases are
modelled by the feedback machine below, and the exam branch's trailing
`handleNext()` by the caller). -/
def handleCheckSequence (isExam : Bool) (q : Question) (userInput : List Int)
    (s : CheckState) : CheckState :=
  let isCorrect := userInput = q.targetMelody
  if isExam then
    if isCorrect then
      { s with
        xpGained := s.xpGained + 10 * q.targetMelody.length
        heatmap := applyHeatmapCorrect q.keyCenter q.targetMelody s.heatmap }
    else
      { s with
        mistakes := s.mistakes + 1
        heatmap := applyHeatmapMismatches q.keyCenter userInput q.targetMelody s.heatmap }
  else
    if isCorrect then
      { s with
        heatmap := applyHeatmapCorrect q.keyCenter q.targetMelody s.heatmap
        feedback := FeedbackKind.correct
        xpGained := if s.hasAttempted then s.xpGained
          else s.xpGained + 10 * q.targetMelody.length
        canAdvance := true
        hasAttempted := true }
    else
      { s with
        heatmap := applyHeatmapMismatches q.keyCenter userInput q.targetMelody s.heatmap
        mistakes := s.mistakes + 1
        hasAttempted := true
        attempts := s.attempts + 1
        isAnswerRevealed := if 3 ≤ s.attempts + 1 then true else s.isAnswerRevealed
        feedback := FeedbackKind.wrong }

/-- Claim C8: in standard (non-exam) grading, a check whose input equals
the target melody element-wise adds `10 × targetMelody.length` to
`xpGained` exactly when it is the first attempt at the question
(`hasAttempted = false`) and leaves `xpGained` unchanged otherwise; every
target note's heatmap slot receives a positive update (left to right), and
advancing becomes allowed. -/
theorem handleCheckSequence_standard_correct (q : Question) (userInput : List Int)
    (s : CheckState) (hin : userInput = q.targetMelody) :
    (handleCheckSequence false q userInput s).xpGained
        = (if s.hasAttempted then s.xpGained else s.xpGained + 10 * q.targetMelody.length)
      ∧ (handleCheckSequence false q userInput s).canAdvance = true
      ∧ (handleCheckSequence false q userInput s).heatmap
        = applyHeatmapCorrect q.keyCenter q.targetMelody s.heatmap
      ∧ (handleCheckSequence false q userInput s).hasAttempted = true := by
  subst hin
  simp [handleCheckSequence]

/-- Witness for C8: a first-attempt correct check on a concrete two-note
question awards 20 XP and enables advancing. -/
theorem handleCheckSequence_standard_correct_witness :
    (handleCheckSequence false ⟨60, [62, 64], "w"⟩ [62, 64]
        ⟨0, INITIAL_STATS.heatmap, false, 0, 0, false, false, FeedbackKind.noFeedback⟩).xpGained
      = (if (false : Bool) then 0 else 0 + 10 * ([62, 64] : List Int).length) :=
  (handleCheckSequence_standard_correct ⟨60, [62, 64], "w"⟩ [62, 64]
    ⟨0, INITIAL_STATS.heatmap, false, 0, 0, false, false, FeedbackKind.noFeedback⟩ rfl).1

/-! ### Wrong-answer feedback cancellation (feedbackSequenceId token)

The standard wrong branch of `handleCheckSequence` captures
`const currentSeqId = ++feedbackSequenceId.current` and then runs three
deferred phases separated by awaited delays — play the user's melody, play
the target melody, play the reference tone — finally enabling advance;
before resuming after every suspension point it re-checks
`feedbackSequenceId.current !== currentSeqId` and returns without further
side effects on mismatch. `handleRetry` increments the token;
`handleNext` does NOT touch it (advancing to another question resets it to
0 through the new-question effect, and advancing into the session summary
leaves it unchanged). The machine below embeds exactly this token
discipline; `pending` holds the in-flight sequences as (captured token,
phases completed), and `log` records the observable side effects in
order. -/

/-- Observable side effects of a wrong-feedback sequence. -/
inductive FbEffect where
  | heatmapNeg (slot : Int)
  | playUserMelody
  | playTargetMelody
  | playReference
deriving DecidableEq, Repr

/-- The session-local cancellation state. -/
structure FbMachine where
  token : Nat
  pending : List (Nat × Nat)
  canAdvance : Bool
  log : List FbEffect
deriving DecidableEq, Repr

/-- The wrong branch of `handleCheckSequence`: the synchronous negative
heatmap updates (logged), then `++feedbackSequenceId.current` captured by a
new deferred sequence at phase 0. -/
def startWrongFeedback (slots : List Int) (m : FbMachine) : FbMachine :=
  { m with
    token := m.token + 1
    pending := m.pending ++ [(m.token + 1, 0)]
    log := m.log ++ slots.map FbEffect.heatmapNeg }

/-- A suspended sequence resumes after a delay: re-check the captured token
against the live one; on mismatch abort with no side effect, otherwise run
the next phase (play user melody, play target melody, play reference tone,
then enable advance). -/
def resumePhase (i : Nat) (m : FbMachine) : FbMachine :=
  match m.pending.get? i with
  | none => m
  | some (cap, k) =>
    if cap ≠ m.token then
      { m with pending := m.pending.eraseIdx i }
    else
      match k with
      | 0 => { m with pending := m.pending.set i (cap, 1),
                      log := m.log ++ [FbEffect.playUserMelody] }
      | 1 => { m with pending := m.pending.set i (cap, 2),
                      log := m.log ++ [FbEffect.playTargetMelody] }
      | 2 => { m with pending := m.pending.set i (cap, 3),
                      log := m.log ++ [FbEffect.playReference] }
      | _ => { m with pending := m.pending.eraseIdx i, canAdvance := true }

/-- `handleRetry`: `feedbackSequenceId.current++` plus the synchronous UI
resets (of which only `setCanAdvance(false)` is modelled here). -/
def handleRetry (m : FbMachine) : FbMachine :=
  { m with token := m.token + 1, canAdvance := false }

/-- `handleNext` when more questions remain: the handler itself leaves the
token alone; the new-question effect then runs
`feedbackSequenceId.current = 0`. -/
def handleNextNewQuestion (m : FbMachine) : FbMachine :=
  { m with token := 0, canAdvance := false }

/-- `handleNext` on the last question: `setShowSummary(true)`, and the
new-question effect is skipped, so the token is left unchanged. -/
def handleNextToSummary (m : FbMachine) : FbMachine :=
  { m with canAdvance := false }

/-- Counterexample to claim C4 as stated: the advance action does not
increment the session-local token. Starting a wrong-feedback sequence from
the initial machine and then advancing into the session summary leaves the
token equal to the sequence's captured value, and the sequence's first
deferred phase still fires its audio side effect after the interrupting
advance. -/
theorem advance_does_not_increment_token :
    ¬ ((handleNextToSummary (startWrongFeedback [] ⟨0, [], false, []⟩)).token
        = (startWrongFeedback [] ⟨0, [], false, []⟩).token + 1)
      ∧ (resumePhase 0 (handleNextToSummary (startWrongFeedback [] ⟨0, [], false, []⟩))).log
        = (handleNextToSummary (startWrongFeedback [] ⟨0, [], false, []⟩)).log
          ++ [FbEffect.playUserMelody] := by
  constructor
  · decide
  · rfl

/-- Claim C4, amended: `handleRetry` unconditionally increments the
session-local token (skip and advance do not: advancing to a new question
resets it to 0 via the new-question effect and advancing into the summary
leaves it unchanged), and whenever a deferred sequence's captured token
differs from the live token at a resume point, that resume performs no side
effect at all — no heatmap update or audio playback is logged, advance is
not enabled, the token is untouched — and the sequence is discarded, so
none of its phases can run later. -/
theorem feedback_cancellation (m : FbMachine) (i cap k : Nat)
    (hp : m.pending.get? i = some (cap, k)) (hne : cap ≠ m.token) :
    (handleRetry m).token = m.token + 1
      ∧ (resumePhase i m).log = m.log
      ∧ (resumePhase i m).canAdvance = m.canAdvance
      ∧ (resumePhase i m).token = m.token
      ∧ (resumePhase i m).pending = m.pending.eraseIdx i := by
  rw [List.get?_eq_getElem?] at hp
  refine ⟨rfl, ?_, ?_, ?_, ?_⟩ <;>
    simp [resumePhase, hp, hne]

/-- Witness for the amended C4: a machine holding one stale sequence
(captured token 3, live token 5) aborts its resume with no logged effect
and discards it. -/
theorem feedback_cancellation_witness :
    (resumePhase 0 (⟨5, [(3, 0)], false, []⟩ : FbMachine)).log
        = (⟨5, [(3, 0)], false, []⟩ : FbMachine).log
      ∧ (resumePhase 0 (⟨5, [(3, 0)], false, []⟩ : FbMachine)).pending
        = (⟨5, [(3, 0)], false, []⟩ : FbMachine).pending.eraseIdx 0 := by
  have h := feedback_cancellation (⟨5, [(3, 0)], false, []⟩ : FbMachine) 0 3 0 rfl
    (by decide)
  exact ⟨h.2.1, h.2.2.2.2⟩

/-! ### Question-generator pools (generateDojoQuestions,
generatePracticeQuestions, generateChallengeQuestions)

Each generator draws every melody note from a pool computed before the
draw: `pool[Math.floor(Math.random() * pool.length)]`. The pool selection
logic is embedded below; the claims concern the pools handed to the draw,
so the randomness and melody construction need no further modelling. -/

/-- `getUnlockedNotes(unlockedIds)`: the union (in JS `Set` insertion
order) of the note pools of every catalog challenge whose id is at most
the highest unlocked id. `Math.max(...unlockedIds)` is modelled as a fold
(the claims assume id 1 is unlocked, so the list is non-empty and the Nat
fold from 0 agrees with JS `Math.max`). -/
def getUnlockedNotes (unlockedIds : List Nat) : List Nat :=
  let maxId := unlockedIds.foldl max 0
  (CURRICULUM.filter fun c => c.id ≤ maxId).foldl
    (fun acc c => c.notePool.foldl jsSetInsert acc) []

/-- The pool a single Dojo draw uses, given the per-question weak-spot
roll (`forceWeakSpots || Math.random() < 0.7`). -/
def dojoPool (stats : UserStats) (useWeak : Bool) : List Nat :=
  let unlockedNotes := getUnlockedNotes stats.unlockedChallenges
  let availableWeakSpots := (getWeakSpots stats.heatmap).filter (· ∈ unlockedNotes)
  let poolToUseForWeak :=
    if 0 < availableWeakSpots.length then availableWeakSpots else unlockedNotes
  if useWeak then poolToUseForWeak else unlockedNotes

/-- The difficulty-selected base pool of `generatePracticeQuestions`. -/
def practiceBasePool : DifficultyLevel → List Nat
  | DifficultyLevel.MASTER => [0, 1, 2, 3, 4, 5, 6, 7, 8, 9, 10, 11]
  | DifficultyLevel.INTERMEDIATE => [0, 1, 2, 3, 4, 5, 6, 7, 8, 9, 10, 11]
  | DifficultyLevel.BEGINNER => [0, 2, 4, 5, 7, 9, 11]

/-- The `activePool` every Practice draw uses: the base pool, intersected
with the weak spots when `forceWeakSpots` is set, keeping the intersection
only if non-empty. -/
def practicePool (difficulty : DifficultyLevel) (heatmap : List Rat)
    (forceWeakSpots : Bool) : List Nat :=
  let basePool := practiceBasePool difficulty
  if forceWeakSpots then
    let intersection := basePool.filter (· ∈ getWeakSpots heatmap)
    if 0 < intersection.length then intersection else basePool
  else basePool

/-- The pool every Challenge-mode draw uses: the challenge's own note pool
(no weak-spot intersection in this mode). -/
def challengeDrawPool (challenge : Challenge) : List Nat :=
  challenge.notePool

theorem le_foldl_max (l : List Nat) (a x : Nat) (hx : x ∈ l) : x ≤ l.foldl max a := by
  have haux : ∀ (l : List Nat) (a : Nat), a ≤ l.foldl max a := by
    intro l
    induction l with
    | nil => intro a; exact le_refl a
    | cons y ys ih => intro a; exact le_trans (le_max_left a y) (ih (max a y))
  induction l generalizing a with
  | nil => cases hx
  | cons y ys ih =>
    rcases List.mem_cons.1 hx with rfl | hys
    · exact le_trans (le_max_right a x) (haux ys (max a x))
    · exact ih (max a y) hys

theorem jsSetInsert_ne_nil (acc : List Nat) (n : Nat) : jsSetInsert acc n ≠ [] := by
  rw [jsSetInsert]
  split
  · rename_i hmem
    intro h
    rw [h] at hmem
    cases hmem
  · simp

theorem foldl_jsSetInsert_ne_nil (l acc : List Nat) (h : acc ≠ []) :
    l.foldl jsSetInsert acc ≠ [] := by
  induction l generalizing acc with
  | nil => exact h
  | cons x xs ih => exact ih (jsSetInsert acc x) (jsSetInsert_ne_nil acc x)

theorem foldl_notePools_ne_nil (cs : List Challenge) (acc : List Nat) (h : acc ≠ []) :
    cs.foldl (fun acc c => c.notePool.foldl jsSetInsert acc) acc ≠ [] := by
  induction cs generalizing acc with
  | nil => exact h
  | cons c cs ih => exact ih _ (foldl_jsSetInsert_ne_nil c.notePool acc h)

theorem getUnlockedNotes_ne_nil (ids : List Nat) (h1 : 1 ∈ ids) :
    getUnlockedNotes ids ≠ [] := by
  rw [getUnlockedNotes]
  have hmax : 1 ≤ ids.foldl max 0 := le_foldl_max ids 0 1 h1
  have hC : CURRICULUM = beginnerChallenge 1 :: CURRICULUM.tail := rfl
  rw [hC, List.filter_cons, if_pos (by simpa [beginnerChallenge] using hmax),
    List.foldl_cons]
  exact foldl_notePools_ne_nil _ _ (by decide)

/-- Claim C9: under the stated preconditions every pool handed to a random
draw by the three generators is non-empty: whenever the weak-spot
intersection is empty the generator falls back to the unintersected pool
before drawing. -/
theorem drawPools_nonempty (stats : UserStats) (ch : Challenge)
    (h1 : 1 ∈ stats.unlockedChallenges) (_hh : stats.heatmap.length = 12)
    (hch : ch.notePool ≠ []) :
    (∀ useWeak, dojoPool stats useWeak ≠ [])
      ∧ (∀ d fw, practicePool d stats.heatmap fw ≠ [])
      ∧ challengeDrawPool ch ≠ [] := by
  have hun : getUnlockedNotes stats.unlockedChallenges ≠ [] :=
    getUnlockedNotes_ne_nil stats.unlockedChallenges h1
  refine ⟨?_, ?_, hch⟩
  · intro useWeak
    rw [dojoPool]
    split
    · split
      · rename_i hlen
        intro h
        rw [h] at hlen
        exact absurd hlen (by decide)
      · exact hun
    · exact hun
  · intro d fw
    have hbase : practiceBasePool d ≠ [] := by cases d <;> decide
    simp only [practicePool]
    split
    · split
      · rename_i hlen
        intro h
        rw [h] at hlen
        exact absurd hlen (by decide)
      · exact hbase
    · exact hbase

/-- Witness for C9: the Dojo weak-spot pool of a fresh profile is
non-empty. -/
theorem drawPools_nonempty_witness : dojoPool INITIAL_STATS true ≠ [] :=
  (drawPools_nonempty INITIAL_STATS (beginnerChallenge 1) (by decide) rfl
    (by decide)).1 true

/-! ### Local persistence (StorageService.save / StorageService.load)

`save` writes `JSON.stringify(stats)` under one key; `load` parses the
stored string and returns `{ ...INITIAL_STATS, ...parsed }` (or the
defaults when nothing is stored). The stored document is modelled as a
record of optional fields — `none` is a field the parsed JSON object does
not carry — and the object spread over the defaults takes the stored field
whenever it is present. `JSON.stringify` of a complete profile keeps every
schema field (a `null` `lastPlayedDate` survives as JSON `null`), so
`save` stores every field as `some`. -/

/-- The parsed form of a stored profile: each schema field is present or
absent. -/
structure StoredStats where
  streak : Option Nat
  xp : Option Nat
  hearts : Option Int
  level : Option Nat
  heatmap : Option (List Rat)
  unlockedChallenges : Option (List Nat)
  highScores : Option (Nat → Option Nat)
  lastPlayedDate : Option (Option String)
  theme : Option Theme

/-- `JSON.parse(JSON.stringify(stats))` for a complete profile: every
schema field is present. -/
def saveStats (p : UserStats) : StoredStats where
  streak := some p.streak
  xp := some p.xp
  hearts := some p.hearts
  level := some p.level
  heatmap := some p.heatmap
  unlockedChallenges := some p.unlockedChallenges
  highScores := some p.highScores
  lastPlayedDate := some p.lastPlayedDate
  theme := some p.theme

/-- `StorageService.load()`: the defaults when nothing is stored, otherwise
`{ ...INITIAL_STATS, ...parsed }` — each field of the parsed object, when
present, overrides the default. -/
def loadStats (stored : Option StoredStats) : UserStats :=
  match stored with
  | none => INITIAL_STATS
  | some q =>
    { streak := q.streak.getD INITIAL_STATS.streak
      xp := q.xp.getD INITIAL_STATS.xp
      hearts := q.hearts.getD INITIAL_STATS.hearts
      level := q.level.getD INITIAL_STATS.level
      heatmap := q.heatmap.getD INITIAL_STATS.heatmap
      unlockedChallenges := q.unlockedChallenges.getD INITIAL_STATS.unlockedChallenges
      highScores := q.highScores.getD INITIAL_STATS.highScores
      lastPlayedDate := q.lastPlayedDate.getD INITIAL_STATS.lastPlayedDate
      theme := q.theme.getD INITIAL_STATS.theme }

/-- Claim C10: saving then loading is the identity on complete profiles —
the structural merge of the parsed value over the initial defaults leaves a
complete profile unchanged. -/
theorem loadStats_saveStats (p : UserStats) : loadStats (some (saveStats p)) = p := by
  cases p
  rfl

end Phenom
